import Mathlib

/-!
Verification of the orientation engine of the LaserRangefinder repository
(src/devices/Accelerometer.py), embedded shallowly over the reals.

The `Accelerometer` class keeps instance fields `xyz_acc`, `xyz_mag`,
`heading`, `norm_heading`, `pitch`, `roll`, `norm`, mutated by
`getAccel`, `getMagnet`, `calcHeading` and `calcNormHeading`.  Sensor
reads are modelled by passing the value read from the bus as an
explicit argument.  `numpy.arctan2` is modelled by the complex
argument, and the Python float modulo `a % m` (for `m > 0`) by
`pyMod`.
-/

namespace LaserRangefinder

/-- A 3-component real vector: the role of the Python lists
`xyz_acc` and `xyz_mag` (indices 0, 1, 2 become fields x, y, z). -/
structure Vec3 where
  x : ℝ
  y : ℝ
  z : ℝ

/-- The instance state of the `Accelerometer` object: every field the
methods of the class read or write. -/
structure AccelState where
  xyz_acc : Vec3
  xyz_mag : Vec3
  heading : ℝ
  norm_heading : ℝ
  pitch : ℝ
  roll : ℝ
  norm : ℝ

/-- Model of `numpy.arctan2 y x`: the argument of the complex number
`x + y i`, which lies in `(-π, π]` and is `0` at the origin, exactly
like the numpy function on non-degenerate real inputs. -/
noncomputable def atan2 (y x : ℝ) : ℝ :=
  Complex.arg ⟨x, y⟩

/-- Model of the Python float modulo `a % m`: for `m > 0` it returns
`a - m * ⌊a / m⌋`, the representative of `a` in `[0, m)`. -/
noncomputable def pyMod (a m : ℝ) : ℝ :=
  a - m * ⌊a / m⌋

/-- The accelerometer norm computed at lines 46-50 of
`calcNormHeading`:  `sqrt (x*x + y*y + z*z)`. -/
noncomputable def normOf (v : Vec3) : ℝ :=
  Real.sqrt (v.x * v.x + v.y * v.y + v.z * v.z)

/-- Method `getAccel` (line 35): stores the accelerometer bus reading
(passed here as the argument `v`) into `xyz_acc`. -/
def getAccel (s : AccelState) (v : Vec3) : AccelState :=
  { s with xyz_acc := v }

/-- Method `getMagnet` (line 38): stores the magnetometer bus reading
into `xyz_mag`. -/
def getMagnet (s : AccelState) (v : Vec3) : AccelState :=
  { s with xyz_mag := v }

/-- Method `calcHeading` (lines 41-42): the raw, uncompensated heading
`arctan2(mag_y, mag_x) % 2π`. -/
noncomputable def calcHeading (s : AccelState) : AccelState :=
  { s with heading := pyMod (atan2 s.xyz_mag.y s.xyz_mag.x) (2 * Real.pi) }

/-- Method `calcNormHeading` (lines 44-77): normalizes the
accelerometer vector, derives pitch and roll, tilt-compensates the
magnetometer vector and derives the compensated heading.  The division
by `cos pitch` at line 58 is exactly as unguarded as in the source. -/
noncomputable def calcNormHeading (s : AccelState) : AccelState :=
  let norm := normOf s.xyz_acc
  let accXnorm := s.xyz_acc.x / norm
  let accYnorm := s.xyz_acc.y / norm
  let pitch := Real.arcsin accXnorm
  let roll := -Real.arcsin (accYnorm / Real.cos pitch)
  let magXcomp := s.xyz_mag.x * Real.cos pitch + s.xyz_mag.z * Real.sin pitch
  let magYcomp := s.xyz_mag.x * Real.sin roll * Real.sin pitch
    + s.xyz_mag.y * Real.cos roll
    - s.xyz_mag.z * Real.sin roll * Real.cos pitch
  let norm_heading := pyMod (atan2 magYcomp magXcomp) (2 * Real.pi)
  { s with norm := norm, pitch := pitch, roll := roll,
           norm_heading := norm_heading }

/-- Method `Update` (lines 18-22): reads both sensors, then computes
the raw heading and the compensated attitude.  The two bus readings
are the arguments `acc` and `mag`. -/
noncomputable def Update (s : AccelState) (acc mag : Vec3) : AccelState :=
  calcNormHeading (calcHeading (getMagnet (getAccel s acc) mag))

/-- Model of `numpy.rad2deg`. -/
noncomputable def rad2deg (x : ℝ) : ℝ :=
  x * (180 / Real.pi)

/-- Method `GetCalcReport` (lines 24-33): calls `Update`, then prints
pitch, roll and compensated heading converted to degrees.  The printed
triple is returned alongside the mutated state. -/
noncomputable def GetCalcReport (s : AccelState) (acc mag : Vec3) :
    AccelState × (ℝ × ℝ × ℝ) :=
  let s2 := Update s acc mag
  (s2, (rad2deg s2.pitch, rad2deg s2.roll, rad2deg s2.norm_heading))

/-! Spec-side model.  The design document describes a `compute`
operation that differs from the source in two numeric points: the
arcsine arguments are clamped to `[-1, 1]`, and the roll computation
is guarded by a gimbal-lock test `|cos pitch| < ε` with the fallback
`roll = 0`.  The following definitions follow the words of the spec
(§4.1, steps 1-6), to be compared with the source functions above. -/

/-- Clamp of the spec, step 3: restrict `v` to `[lo, hi]`. -/
noncomputable def clamp (v lo hi : ℝ) : ℝ :=
  max lo (min v hi)

/-- The fixed gimbal-lock tolerance of the spec (its example value `1e-6`). -/
noncomputable def specEps : ℝ :=
  1 / 1000000

/-- Pitch as the spec words it (step 3): `asin (clamp (nx, -1, 1))`. -/
noncomputable def spec_pitch (a : Vec3) : ℝ :=
  Real.arcsin (clamp (a.x / normOf a) (-1) 1)

/-- Roll as the spec words it (step 4): gimbal-lock guard with the
fallback `roll = 0`, otherwise `-asin (clamp (ny / cp, -1, 1))`. -/
noncomputable def spec_roll (a : Vec3) : ℝ :=
  let cp := Real.cos (spec_pitch a)
  if |cp| < specEps then 0
  else -Real.arcsin (clamp ((a.y / normOf a) / cp) (-1) 1)

/-- Tilt-compensated heading as the spec words it (steps 5-6), using
the pitch and roll of the spec algorithm. -/
noncomputable def spec_heading (a m : Vec3) : ℝ :=
  let p := spec_pitch a
  let r := spec_roll a
  let magXcomp := m.x * Real.cos p + m.z * Real.sin p
  let magYcomp := m.x * Real.sin r * Real.sin p + m.y * Real.cos r
    - m.z * Real.sin r * Real.cos p
  pyMod (atan2 magYcomp magXcomp) (2 * Real.pi)

/-! Basic lemmas about the embedding. -/

/-- For a positive modulus, `pyMod` lands in `[0, m)`. -/
lemma pyMod_mem_Ico {m : ℝ} (hm : 0 < m) (a : ℝ) :
    pyMod a m ∈ Set.Ico 0 m := by
  have key : pyMod a m = m * Int.fract (a / m) := by
    unfold pyMod Int.fract
    field_simp
  constructor
  · rw [key]
    exact mul_nonneg hm.le (Int.fract_nonneg _)
  · rw [key]
    calc m * Int.fract (a / m) < m * 1 :=
          (mul_lt_mul_left hm).mpr (Int.fract_lt_one _)
    _ = m := mul_one m

/-- `pyMod` is the identity on `[0, m)`. -/
lemma pyMod_eq_self {a m : ℝ} (h0 : 0 ≤ a) (h1 : a < m) :
    pyMod a m = a := by
  have hm : 0 < m := lt_of_le_of_lt h0 h1
  have hfloor : ⌊a / m⌋ = 0 := by
    rw [Int.floor_eq_zero_iff]
    constructor
    · exact div_nonneg h0 hm.le
    · rw [div_lt_one hm]
      exact h1
  unfold pyMod
  rw [hfloor]
  simp

/-- Projection of the update: the computed pitch. -/
lemma update_pitch (s : AccelState) (acc mag : Vec3) :
    (Update s acc mag).pitch = Real.arcsin (acc.x / normOf acc) := rfl

/-- Projection of the update: the computed roll. -/
lemma update_roll (s : AccelState) (acc mag : Vec3) :
    (Update s acc mag).roll =
      -Real.arcsin ((acc.y / normOf acc) /
        Real.cos (Real.arcsin (acc.x / normOf acc))) := rfl

/-- Projection of the update: the raw heading. -/
lemma update_heading (s : AccelState) (acc mag : Vec3) :
    (Update s acc mag).heading =
      pyMod (atan2 mag.y mag.x) (2 * Real.pi) := rfl

/-- Projection of the update: the compensated heading, in terms of the
computed pitch and roll. -/
lemma update_norm_heading (s : AccelState) (acc mag : Vec3) :
    (Update s acc mag).norm_heading =
      pyMod (atan2
        (mag.x * Real.sin ((Update s acc mag).roll) *
            Real.sin ((Update s acc mag).pitch)
          + mag.y * Real.cos ((Update s acc mag).roll)
          - mag.z * Real.sin ((Update s acc mag).roll) *
              Real.cos ((Update s acc mag).pitch))
        (mag.x * Real.cos ((Update s acc mag).pitch)
          + mag.z * Real.sin ((Update s acc mag).pitch)))
        (2 * Real.pi) := rfl

/-- The accelerometer norm is nonnegative. -/
lemma normOf_nonneg (v : Vec3) : 0 ≤ normOf v :=
  Real.sqrt_nonneg _

/-- The squared accelerometer norm is the sum of the squared components. -/
lemma normOf_mul_self (v : Vec3) :
    normOf v * normOf v = v.x * v.x + v.y * v.y + v.z * v.z := by
  have hx := mul_self_nonneg v.x
  have hy := mul_self_nonneg v.y
  have hz := mul_self_nonneg v.z
  exact Real.mul_self_sqrt (by linarith)

/-- Each component is bounded in absolute value by the norm. -/
lemma abs_x_le_normOf (v : Vec3) : |v.x| ≤ normOf v := by
  have hy := mul_self_nonneg v.y
  have hz := mul_self_nonneg v.z
  calc |v.x| = Real.sqrt (v.x * v.x) := (Real.sqrt_mul_self_eq_abs v.x).symm
  _ ≤ normOf v := Real.sqrt_le_sqrt (by linarith)

/-- Each component is bounded in absolute value by the norm. -/
lemma abs_y_le_normOf (v : Vec3) : |v.y| ≤ normOf v := by
  have hx := mul_self_nonneg v.x
  have hz := mul_self_nonneg v.z
  calc |v.y| = Real.sqrt (v.y * v.y) := (Real.sqrt_mul_self_eq_abs v.y).symm
  _ ≤ normOf v := Real.sqrt_le_sqrt (by linarith)

/-- A normalized component lies in `[-1, 1]`. -/
lemma abs_x_div_normOf_le_one {v : Vec3} (h : normOf v ≠ 0) :
    |v.x / normOf v| ≤ 1 := by
  have hn : 0 < normOf v := (normOf_nonneg v).lt_of_ne (Ne.symm h)
  rw [abs_div, abs_of_pos hn, div_le_one hn]
  exact abs_x_le_normOf v

/-- The clamp of the spec is the identity on `[-1, 1]`. -/
lemma clamp_eq_self {v : ℝ} (h : |v| ≤ 1) : clamp v (-1) 1 = v := by
  rw [abs_le] at h
  unfold clamp
  rw [min_eq_left h.2, max_eq_right h.1]

/-- Value of the modelled arctan2 on the positive x-axis. -/
lemma atan2_zero_one : atan2 0 1 = 0 := by
  have h : (⟨1, 0⟩ : ℂ) = 1 := by
    apply Complex.ext <;> simp
  unfold atan2
  rw [h, Complex.arg_one]

/-- Value of the modelled arctan2 on the negative x-axis. -/
lemma atan2_zero_neg_one : atan2 0 (-1) = Real.pi := by
  have h : (⟨-1, 0⟩ : ℂ) = -1 := by
    apply Complex.ext <;> simp
  unfold atan2
  rw [h, Complex.arg_neg_one]

/-- Value of the modelled arctan2 on the positive y-axis. -/
lemma atan2_one_zero : atan2 1 0 = Real.pi / 2 := by
  have h : (⟨0, 1⟩ : ℂ) = Complex.I := by
    apply Complex.ext <;> simp
  unfold atan2
  rw [h, Complex.arg_I]

/-- Value of the modelled arctan2 at the origin (as in numpy). -/
lemma atan2_zero_zero : atan2 0 0 = 0 := by
  have h : (⟨0, 0⟩ : ℂ) = 0 := by
    apply Complex.ext <;> simp
  unfold atan2
  rw [h, Complex.arg_zero]

/-- `pyMod` of zero is zero. -/
lemma pyMod_zero (m : ℝ) : pyMod 0 m = 0 := by
  unfold pyMod
  simp

/-! Claim theorems. -/

/-- C8: the attitude computed by `Update` is a function of the two
sensor readings alone.  Two invocations from arbitrary (and possibly
different) cached states, fed identical accelerometer and magnetometer
vectors, produce identical pitch, roll, raw heading and compensated
heading. -/
theorem update_deterministic (t₁ t₂ : AccelState) (acc mag : Vec3) :
    (Update t₁ acc mag).pitch = (Update t₂ acc mag).pitch ∧
    (Update t₁ acc mag).roll = (Update t₂ acc mag).roll ∧
    (Update t₁ acc mag).heading = (Update t₂ acc mag).heading ∧
    (Update t₁ acc mag).norm_heading = (Update t₂ acc mag).norm_heading :=
  ⟨rfl, rfl, rfl, rfl⟩

/-- C9 counterexample: `GetCalcReport` is not a pure formatting
operation.  Starting from a state whose cached pitch is `1`, a call
with sensor readings `acc = (0,0,1)`, `mag = (1,0,0)` overwrites the
cached pitch (with `0`): the engine state is modified. -/
theorem getCalcReport_mutates_state :
    (GetCalcReport ⟨⟨0,0,0⟩, ⟨0,0,0⟩, 0, 0, 1, 0, 0⟩ ⟨0,0,1⟩ ⟨1,0,0⟩).1.pitch ≠
      (AccelState.mk ⟨0,0,0⟩ ⟨0,0,0⟩ 0 0 1 0 0).pitch := by
  have h : (GetCalcReport ⟨⟨0,0,0⟩, ⟨0,0,0⟩, 0, 0, 1, 0, 0⟩
      ⟨0,0,1⟩ ⟨1,0,0⟩).1.pitch = 0 := by
    show (Update ⟨⟨0,0,0⟩, ⟨0,0,0⟩, 0, 0, 1, 0, 0⟩ ⟨0,0,1⟩ ⟨1,0,0⟩).pitch = 0
    rw [update_pitch]
    simp
  rw [h]
  show (0 : ℝ) ≠ 1
  norm_num

/-- C9 amended: the mutation performed by `GetCalcReport` is exactly
that of `Update`, and the printed report is a pure function of the
three angles of the updated state, converted to degrees. -/
theorem getCalcReport_formats_update (s : AccelState) (acc mag : Vec3) :
    (GetCalcReport s acc mag).1 = Update s acc mag ∧
    (GetCalcReport s acc mag).2 =
      (rad2deg (Update s acc mag).pitch,
       rad2deg (Update s acc mag).roll,
       rad2deg (Update s acc mag).norm_heading) :=
  ⟨rfl, rfl⟩

/-- C2: on a zero accelerometer vector the code does not fail and does
not leave the cached attitude unchanged: `calcNormHeading` runs the
divisions with a zero norm and overwrites the cached pitch (here `1`)
with the freshly computed value. -/
theorem zero_accel_overwrites_cache :
    (Update ⟨⟨0,0,0⟩, ⟨0,0,0⟩, 0, 0, 1, 0, 0⟩ ⟨0,0,0⟩ ⟨1,0,0⟩).pitch ≠
      (AccelState.mk ⟨0,0,0⟩ ⟨0,0,0⟩ 0 0 1 0 0).pitch := by
  have h : (Update ⟨⟨0,0,0⟩, ⟨0,0,0⟩, 0, 0, 1, 0, 0⟩ ⟨0,0,0⟩ ⟨1,0,0⟩).pitch = 0 := by
    rw [update_pitch]
    simp
  rw [h]
  show (0 : ℝ) ≠ 1
  norm_num

/-- C5: for every accelerometer vector of nonzero norm, the computed
pitch and roll both lie in `[-π/2, π/2]`. -/
theorem pitch_roll_in_range (s : AccelState) (acc mag : Vec3)
    (h : normOf acc ≠ 0) :
    (Update s acc mag).pitch ∈ Set.Icc (-(Real.pi / 2)) (Real.pi / 2) ∧
    (Update s acc mag).roll ∈ Set.Icc (-(Real.pi / 2)) (Real.pi / 2) := by
  constructor
  · rw [update_pitch]
    exact Real.arcsin_mem_Icc _
  · rw [update_roll]
    have h2 := Real.arcsin_mem_Icc ((acc.y / normOf acc) /
      Real.cos (Real.arcsin (acc.x / normOf acc)))
    rw [Set.mem_Icc] at h2 ⊢
    constructor
    · linarith [h2.2]
    · linarith [h2.1]

/-- Witness for C5 at `acc = (0,0,1)`. -/
theorem pitch_roll_in_range_witness :
    normOf ⟨0, 0, 1⟩ ≠ 0 ∧
    ((Update ⟨⟨0,0,0⟩, ⟨0,0,0⟩, 0, 0, 0, 0, 0⟩ ⟨0,0,1⟩ ⟨1,0,0⟩).pitch ∈
        Set.Icc (-(Real.pi / 2)) (Real.pi / 2) ∧
      (Update ⟨⟨0,0,0⟩, ⟨0,0,0⟩, 0, 0, 0, 0, 0⟩ ⟨0,0,1⟩ ⟨1,0,0⟩).roll ∈
        Set.Icc (-(Real.pi / 2)) (Real.pi / 2)) := by
  have hn : normOf ⟨0, 0, 1⟩ ≠ 0 := by
    unfold normOf
    norm_num [Real.sqrt_one]
  exact ⟨hn, pitch_roll_in_range _ _ _ hn⟩

/-- C4: both the raw heading and the tilt-compensated heading computed
by `Update` lie in `[0, 2π)`. -/
theorem headings_in_range (s : AccelState) (acc mag : Vec3)
    (h : normOf acc ≠ 0) :
    (Update s acc mag).heading ∈ Set.Ico 0 (2 * Real.pi) ∧
    (Update s acc mag).norm_heading ∈ Set.Ico 0 (2 * Real.pi) := by
  have h2 : (0 : ℝ) < 2 * Real.pi := by positivity
  constructor
  · rw [update_heading]
    exact pyMod_mem_Ico h2 _
  · rw [update_norm_heading]
    exact pyMod_mem_Ico h2 _

/-- Witness for C4 at `acc = (0,0,1)`, `mag = (1,0,0)`. -/
theorem headings_in_range_witness :
    normOf ⟨0, 0, 1⟩ ≠ 0 ∧
    ((Update ⟨⟨0,0,0⟩, ⟨0,0,0⟩, 0, 0, 0, 0, 0⟩ ⟨0,0,1⟩ ⟨1,0,0⟩).heading ∈
        Set.Ico 0 (2 * Real.pi) ∧
      (Update ⟨⟨0,0,0⟩, ⟨0,0,0⟩, 0, 0, 0, 0, 0⟩ ⟨0,0,1⟩ ⟨1,0,0⟩).norm_heading ∈
        Set.Ico 0 (2 * Real.pi)) := by
  have hn : normOf ⟨0, 0, 1⟩ ≠ 0 := by
    unfold normOf
    norm_num [Real.sqrt_one]
  exact ⟨hn, headings_in_range _ _ _ hn⟩

/-! A concrete near-gimbal-lock input: the unit accelerometer vector
`(sqrt (1 - 10⁻¹⁴), 10⁻⁷, 0)`, whose pitch has `cos pitch = 10⁻⁷`,
inside the spec tolerance band `|cos pitch| < 10⁻⁶`. -/

/-- The norm of the near-gimbal-lock input is `1`. -/
lemma gimbal_norm :
    normOf ⟨Real.sqrt (1 - (1/10000000)^2), 1/10000000, 0⟩ = 1 := by
  unfold normOf
  show Real.sqrt
      (Real.sqrt (1 - (1/10000000 : ℝ)^2) * Real.sqrt (1 - (1/10000000 : ℝ)^2)
        + 1/10000000 * (1/10000000) + 0 * 0) = 1
  rw [Real.mul_self_sqrt (by norm_num)]
  rw [show (1 - (1/10000000 : ℝ)^2) + 1/10000000 * (1/10000000) + 0 * 0 = 1
    by ring]
  exact Real.sqrt_one

/-- Pitch at the near-gimbal-lock input. -/
lemma gimbal_pitch (s : AccelState) (mag : Vec3) :
    (Update s ⟨Real.sqrt (1 - (1/10000000)^2), 1/10000000, 0⟩ mag).pitch =
      Real.arcsin (Real.sqrt (1 - (1/10000000)^2)) := by
  rw [update_pitch, gimbal_norm]
  simp

/-- Cosine of the pitch at the near-gimbal-lock input is exactly `10⁻⁷`. -/
lemma gimbal_cos :
    Real.cos (Real.arcsin (Real.sqrt (1 - (1/10000000)^2))) =
      1/10000000 := by
  rw [Real.cos_arcsin, Real.sq_sqrt (by norm_num)]
  rw [show (1 : ℝ) - (1 - (1/10000000)^2) = (1/10000000)^2 by ring]
  rw [Real.sqrt_sq (by norm_num)]

/-- Roll at the near-gimbal-lock input: the unguarded division by
`cos pitch = 10⁻⁷` produces `-asin 1 = -π/2`. -/
lemma gimbal_roll (s : AccelState) (mag : Vec3) :
    (Update s ⟨Real.sqrt (1 - (1/10000000)^2), 1/10000000, 0⟩ mag).roll =
      -(Real.pi / 2) := by
  rw [update_roll, gimbal_norm]
  show -Real.arcsin ((1/10000000 : ℝ) / 1 /
      Real.cos (Real.arcsin (Real.sqrt (1 - (1/10000000 : ℝ)^2) / 1))) =
    -(Real.pi / 2)
  rw [div_one, div_one, gimbal_cos,
    div_self (by norm_num : (1/10000000 : ℝ) ≠ 0), Real.arcsin_one]

/-- C1: the code divides by `cos pitch` unguarded.  At the Scenario B
input `accel = (1,0,0)`, `mag = (0,1,0)` it computes `pitch = π/2` and
`roll = 0` (the numerator is zero), but there is no epsilon guard: at
the near-gimbal-lock input `(sqrt (1 - 10⁻¹⁴), 10⁻⁷, 0)` the cosine of
the pitch satisfies `|cos pitch| < 10⁻⁶` and yet the computed roll is
`-π/2`, not the `roll = 0` fallback the claim describes; no
gimbal-lock flag exists anywhere in the state. -/
theorem roll_division_unguarded (s : AccelState) :
    (Update s ⟨1, 0, 0⟩ ⟨0, 1, 0⟩).pitch = Real.pi / 2 ∧
    (Update s ⟨1, 0, 0⟩ ⟨0, 1, 0⟩).roll = 0 ∧
    |Real.cos ((Update s ⟨Real.sqrt (1 - (1/10000000)^2), 1/10000000, 0⟩
        ⟨0, 1, 0⟩).pitch)| < specEps ∧
    (Update s ⟨Real.sqrt (1 - (1/10000000)^2), 1/10000000, 0⟩
        ⟨0, 1, 0⟩).roll ≠ 0 := by
  have hn : normOf ⟨1, 0, 0⟩ = 1 := by
    unfold normOf
    norm_num [Real.sqrt_one]
  refine ⟨?_, ?_, ?_, ?_⟩
  · rw [update_pitch, hn]
    simp [Real.arcsin_one]
  · rw [update_roll, hn]
    simp
  · rw [gimbal_pitch, gimbal_cos]
    rw [abs_of_pos (by norm_num : (0 : ℝ) < 1/10000000)]
    unfold specEps
    norm_num
  · rw [gimbal_roll]
    have hpi := Real.pi_pos
    intro hc
    rw [neg_eq_zero] at hc
    linarith

/-- C6: Scenario D.  With `accel = (0,0,-1)` and `mag = (-1,0,0)` the
code computes `pitch = 0`, `roll = 0` and a compensated heading of
`π`: the `atan2` value on the negative x-axis is `π`, and the
modulo-2π wrap leaves it unchanged. -/
theorem scenario_d_inverted (s : AccelState) :
    (Update s ⟨0, 0, -1⟩ ⟨-1, 0, 0⟩).pitch = 0 ∧
    (Update s ⟨0, 0, -1⟩ ⟨-1, 0, 0⟩).roll = 0 ∧
    (Update s ⟨0, 0, -1⟩ ⟨-1, 0, 0⟩).norm_heading = Real.pi := by
  have hp : (Update s ⟨0, 0, -1⟩ ⟨-1, 0, 0⟩).pitch = 0 := by
    rw [update_pitch]
    simp
  have hr : (Update s ⟨0, 0, -1⟩ ⟨-1, 0, 0⟩).roll = 0 := by
    rw [update_roll]
    simp
  refine ⟨hp, hr, ?_⟩
  rw [update_norm_heading, hp, hr]
  show pyMod (atan2
      ((-1) * Real.sin 0 * Real.sin 0 + 0 * Real.cos 0
        - 0 * Real.sin 0 * Real.cos 0)
      ((-1) * Real.cos 0 + 0 * Real.sin 0)) (2 * Real.pi) = Real.pi
  rw [show ((-1 : ℝ)) * Real.sin 0 * Real.sin 0 + 0 * Real.cos 0
      - 0 * Real.sin 0 * Real.cos 0 = 0 by simp]
  rw [show ((-1 : ℝ)) * Real.cos 0 + 0 * Real.sin 0 = -1 by simp]
  rw [atan2_zero_neg_one]
  exact pyMod_eq_self Real.pi_pos.le (by linarith [Real.pi_pos])

/-- For a nonzero accelerometer vector the roll argument
`(ny) / cos (asin nx)` lies in `[-1, 1]` whenever the cosine is
positive: the squared normalized components sum to one. -/
lemma abs_roll_arg_le_one {v : Vec3} (h : normOf v ≠ 0)
    (hc : 0 < Real.cos (Real.arcsin (v.x / normOf v))) :
    |(v.y / normOf v) / Real.cos (Real.arcsin (v.x / normOf v))| ≤ 1 := by
  have hn : 0 < normOf v := (normOf_nonneg v).lt_of_ne (Ne.symm h)
  have hnn : (0 : ℝ) < normOf v * normOf v := mul_pos hn hn
  have key : (v.x / normOf v)^2 + (v.y / normOf v)^2 ≤ 1 := by
    have e1 : (v.x / normOf v)^2 + (v.y / normOf v)^2 =
        (v.x * v.x + v.y * v.y) / (normOf v * normOf v) := by
      field_simp
      ring
    rw [e1, div_le_one hnn, normOf_mul_self v]
    linarith [mul_self_nonneg v.z]
  have h1 : |v.y / normOf v| ≤ Real.sqrt (1 - (v.x / normOf v)^2) := by
    rw [← Real.sqrt_sq_eq_abs]
    apply Real.sqrt_le_sqrt
    linarith
  rw [abs_div, abs_of_pos hc, div_le_one hc, Real.cos_arcsin]
  exact h1

/-- C7: for a nonzero accelerometer vector, the computed pitch equals
the arcsine of the clamped normalized x-component.  (The source
applies no clamp; in exact arithmetic `|nx| ≤ 1` always holds, so the
clamp of the spec is the identity there.) -/
theorem pitch_equals_clamped_arcsin (s : AccelState) (acc mag : Vec3)
    (h : normOf acc ≠ 0) :
    (Update s acc mag).pitch =
      Real.arcsin (clamp (acc.x / normOf acc) (-1) 1) := by
  rw [update_pitch, clamp_eq_self (abs_x_div_normOf_le_one h)]

/-- Witness for C7 at `acc = (0,0,1)`. -/
theorem pitch_equals_clamped_arcsin_witness :
    normOf ⟨0, 0, 1⟩ ≠ 0 ∧
    (Update ⟨⟨0,0,0⟩, ⟨0,0,0⟩, 0, 0, 0, 0, 0⟩ ⟨0,0,1⟩ ⟨1,0,0⟩).pitch =
      Real.arcsin (clamp ((Vec3.mk 0 0 1).x / normOf ⟨0, 0, 1⟩) (-1) 1) := by
  have hn : normOf ⟨0, 0, 1⟩ ≠ 0 := by
    unfold normOf
    norm_num [Real.sqrt_one]
  exact ⟨hn, pitch_equals_clamped_arcsin _ _ _ hn⟩

/-- C3 amended: whenever the gimbal-lock guard of the spec does not
fire (`|cos pitch| ≥ ε`), the compensated heading of the code is
exactly the heading of the spec algorithm: `atan2` of the
tilt-compensated components, wrapped into `[0, 2π)`, with the clamped
pitch and roll of the spec. -/
theorem norm_heading_matches_spec (s : AccelState) (acc mag : Vec3)
    (h : normOf acc ≠ 0)
    (hg : specEps ≤ |Real.cos ((Update s acc mag).pitch)|) :
    (Update s acc mag).norm_heading = spec_heading acc mag := by
  have heps : (0 : ℝ) < specEps := by
    unfold specEps
    norm_num
  have hcos0 : 0 ≤ Real.cos (Real.arcsin (acc.x / normOf acc)) :=
    Real.cos_arcsin_nonneg _
  rw [update_pitch, abs_of_nonneg hcos0] at hg
  have hcpos : 0 < Real.cos (Real.arcsin (acc.x / normOf acc)) :=
    lt_of_lt_of_le heps hg
  have hp : spec_pitch acc = Real.arcsin (acc.x / normOf acc) := by
    unfold spec_pitch
    rw [clamp_eq_self (abs_x_div_normOf_le_one h)]
  have hguard : ¬ |Real.cos (spec_pitch acc)| < specEps := by
    rw [hp, abs_of_nonneg hcos0]
    exact not_lt.mpr hg
  have hr : spec_roll acc =
      -Real.arcsin ((acc.y / normOf acc) /
        Real.cos (Real.arcsin (acc.x / normOf acc))) := by
    simp only [spec_roll]
    rw [if_neg hguard, hp, clamp_eq_self (abs_roll_arg_le_one h hcpos)]
  rw [update_norm_heading, update_pitch, update_roll]
  simp only [spec_heading]
  rw [hp, hr]

/-- Witness for the amended C3 at `acc = (0,0,1)`, `mag = (1,0,0)`. -/
theorem norm_heading_matches_spec_witness :
    normOf ⟨0, 0, 1⟩ ≠ 0 ∧
    (Update ⟨⟨0,0,0⟩, ⟨0,0,0⟩, 0, 0, 0, 0, 0⟩ ⟨0,0,1⟩ ⟨1,0,0⟩).norm_heading =
      spec_heading ⟨0, 0, 1⟩ ⟨1, 0, 0⟩ := by
  have hn : normOf ⟨0, 0, 1⟩ ≠ 0 := by
    unfold normOf
    norm_num [Real.sqrt_one]
  have hg : specEps ≤
      |Real.cos ((Update ⟨⟨0,0,0⟩, ⟨0,0,0⟩, 0, 0, 0, 0, 0⟩
        ⟨0,0,1⟩ ⟨1,0,0⟩).pitch)| := by
    rw [update_pitch]
    show specEps ≤ |Real.cos (Real.arcsin (0 / normOf ⟨0, 0, 1⟩))|
    rw [zero_div, Real.arcsin_zero, Real.cos_zero, abs_one]
    unfold specEps
    norm_num
  exact ⟨hn, norm_heading_matches_spec _ _ _ hn hg⟩

/-- C3 counterexample: at the near-gimbal-lock input
`accel = (sqrt (1 - 10⁻¹⁴), 10⁻⁷, 0)`, `mag = (0,1,0)` the heading of
the spec algorithm (whose guard fires and sets `roll = 0`) is `π/2`,
while the code (which divides unguarded and gets `roll = -π/2`)
computes the compensated heading `0`. -/
theorem norm_heading_spec_mismatch :
    spec_heading ⟨Real.sqrt (1 - (1/10000000)^2), 1/10000000, 0⟩ ⟨0, 1, 0⟩ =
      Real.pi / 2 ∧
    (Update ⟨⟨0,0,0⟩, ⟨0,0,0⟩, 0, 0, 0, 0, 0⟩
      ⟨Real.sqrt (1 - (1/10000000)^2), 1/10000000, 0⟩ ⟨0, 1, 0⟩).norm_heading
      = 0 ∧
    (Update ⟨⟨0,0,0⟩, ⟨0,0,0⟩, 0, 0, 0, 0, 0⟩
      ⟨Real.sqrt (1 - (1/10000000)^2), 1/10000000, 0⟩ ⟨0, 1, 0⟩).norm_heading
      ≠ spec_heading ⟨Real.sqrt (1 - (1/10000000)^2), 1/10000000, 0⟩
          ⟨0, 1, 0⟩ := by
  have hsqrt_le : Real.sqrt (1 - (1/10000000 : ℝ)^2) ≤ 1 := by
    have h := Real.sqrt_le_sqrt (show (1 - (1/10000000 : ℝ)^2) ≤ 1 by norm_num)
    rwa [Real.sqrt_one] at h
  have hp : spec_pitch ⟨Real.sqrt (1 - (1/10000000)^2), 1/10000000, 0⟩ =
      Real.arcsin (Real.sqrt (1 - (1/10000000)^2)) := by
    unfold spec_pitch
    rw [gimbal_norm]
    show Real.arcsin
        (clamp (Real.sqrt (1 - (1/10000000 : ℝ)^2) / 1) (-1) 1) = _
    rw [div_one, clamp_eq_self (by
      rw [abs_of_nonneg (Real.sqrt_nonneg _)]
      exact hsqrt_le)]
  have hguard : |Real.cos (spec_pitch
      ⟨Real.sqrt (1 - (1/10000000)^2), 1/10000000, 0⟩)| < specEps := by
    rw [hp, gimbal_cos, abs_of_pos (by norm_num : (0 : ℝ) < 1/10000000)]
    unfold specEps
    norm_num
  have hr0 : spec_roll ⟨Real.sqrt (1 - (1/10000000)^2), 1/10000000, 0⟩ = 0 := by
    simp only [spec_roll]
    rw [if_pos hguard]
  have hspec : spec_heading
      ⟨Real.sqrt (1 - (1/10000000)^2), 1/10000000, 0⟩ ⟨0, 1, 0⟩ =
      Real.pi / 2 := by
    simp only [spec_heading]
    rw [hp, hr0]
    show pyMod (atan2
        (0 * Real.sin 0 * Real.sin (Real.arcsin (Real.sqrt (1 - (1/10000000 : ℝ)^2)))
          + 1 * Real.cos 0
          - 0 * Real.sin 0 *
              Real.cos (Real.arcsin (Real.sqrt (1 - (1/10000000 : ℝ)^2))))
        (0 * Real.cos (Real.arcsin (Real.sqrt (1 - (1/10000000 : ℝ)^2)))
          + 0 * Real.sin (Real.arcsin (Real.sqrt (1 - (1/10000000 : ℝ)^2)))))
        (2 * Real.pi) = Real.pi / 2
    rw [show (0 : ℝ) * Real.sin 0 *
        Real.sin (Real.arcsin (Real.sqrt (1 - (1/10000000 : ℝ)^2)))
        + 1 * Real.cos 0
        - 0 * Real.sin 0 *
            Real.cos (Real.arcsin (Real.sqrt (1 - (1/10000000 : ℝ)^2))) = 1
      by simp]
    rw [show (0 : ℝ) * Real.cos (Real.arcsin (Real.sqrt (1 - (1/10000000 : ℝ)^2)))
        + 0 * Real.sin (Real.arcsin (Real.sqrt (1 - (1/10000000 : ℝ)^2))) = 0
      by simp]
    rw [atan2_one_zero]
    exact pyMod_eq_self (by positivity) (by linarith [Real.pi_pos])
  have hcode : (Update ⟨⟨0,0,0⟩, ⟨0,0,0⟩, 0, 0, 0, 0, 0⟩
      ⟨Real.sqrt (1 - (1/10000000)^2), 1/10000000, 0⟩ ⟨0, 1, 0⟩).norm_heading
      = 0 := by
    rw [update_norm_heading, gimbal_pitch, gimbal_roll]
    show pyMod (atan2
        (0 * Real.sin (-(Real.pi / 2)) *
            Real.sin (Real.arcsin (Real.sqrt (1 - (1/10000000 : ℝ)^2)))
          + 1 * Real.cos (-(Real.pi / 2))
          - 0 * Real.sin (-(Real.pi / 2)) *
              Real.cos (Real.arcsin (Real.sqrt (1 - (1/10000000 : ℝ)^2))))
        (0 * Real.cos (Real.arcsin (Real.sqrt (1 - (1/10000000 : ℝ)^2)))
          + 0 * Real.sin (Real.arcsin (Real.sqrt (1 - (1/10000000 : ℝ)^2)))))
        (2 * Real.pi) = 0
    rw [show (0 : ℝ) * Real.sin (-(Real.pi / 2)) *
        Real.sin (Real.arcsin (Real.sqrt (1 - (1/10000000 : ℝ)^2)))
        + 1 * Real.cos (-(Real.pi / 2))
        - 0 * Real.sin (-(Real.pi / 2)) *
            Real.cos (Real.arcsin (Real.sqrt (1 - (1/10000000 : ℝ)^2))) = 0
      by simp [Real.cos_pi_div_two]]
    rw [show (0 : ℝ) * Real.cos (Real.arcsin (Real.sqrt (1 - (1/10000000 : ℝ)^2)))
        + 0 * Real.sin (Real.arcsin (Real.sqrt (1 - (1/10000000 : ℝ)^2))) = 0
      by simp]
    rw [atan2_zero_zero, pyMod_zero]
  refine ⟨hspec, hcode, ?_⟩
  rw [hspec, hcode]
  exact ne_of_lt (by positivity)

/-- The norm scales linearly under scaling of the vector by `k ≥ 0`. -/
lemma normOf_smul (v : Vec3) {k : ℝ} (hk : 0 ≤ k) :
    normOf ⟨k * v.x, k * v.y, k * v.z⟩ = k * normOf v := by
  unfold normOf
  show Real.sqrt (k * v.x * (k * v.x) + k * v.y * (k * v.y)
      + k * v.z * (k * v.z)) = k * Real.sqrt (v.x * v.x + v.y * v.y + v.z * v.z)
  rw [show k * v.x * (k * v.x) + k * v.y * (k * v.y) + k * v.z * (k * v.z)
      = (k * k) * (v.x * v.x + v.y * v.y + v.z * v.z) by ring]
  rw [Real.sqrt_mul (mul_self_nonneg k), Real.sqrt_mul_self hk]

/-- C10: scaling the accelerometer vector by any `k > 0` leaves pitch,
roll and the compensated heading unchanged: normalization makes the
result depend only on the direction of the vector. -/
theorem update_scale_invariant (s : AccelState) (acc mag : Vec3) (k : ℝ)
    (hk : 0 < k) (h : normOf acc ≠ 0) :
    (Update s ⟨k * acc.x, k * acc.y, k * acc.z⟩ mag).pitch =
      (Update s acc mag).pitch ∧
    (Update s ⟨k * acc.x, k * acc.y, k * acc.z⟩ mag).roll =
      (Update s acc mag).roll ∧
    (Update s ⟨k * acc.x, k * acc.y, k * acc.z⟩ mag).norm_heading =
      (Update s acc mag).norm_heading := by
  have hx : k * acc.x / normOf ⟨k * acc.x, k * acc.y, k * acc.z⟩ =
      acc.x / normOf acc := by
    rw [normOf_smul acc hk.le]
    exact mul_div_mul_left _ _ hk.ne'
  have hy : k * acc.y / normOf ⟨k * acc.x, k * acc.y, k * acc.z⟩ =
      acc.y / normOf acc := by
    rw [normOf_smul acc hk.le]
    exact mul_div_mul_left _ _ hk.ne'
  have hp : (Update s ⟨k * acc.x, k * acc.y, k * acc.z⟩ mag).pitch =
      (Update s acc mag).pitch := by
    rw [update_pitch, update_pitch]
    show Real.arcsin (k * acc.x / normOf ⟨k * acc.x, k * acc.y, k * acc.z⟩) =
      Real.arcsin (acc.x / normOf acc)
    rw [hx]
  have hr : (Update s ⟨k * acc.x, k * acc.y, k * acc.z⟩ mag).roll =
      (Update s acc mag).roll := by
    rw [update_roll, update_roll]
    show -Real.arcsin (k * acc.y / normOf ⟨k * acc.x, k * acc.y, k * acc.z⟩ /
        Real.cos (Real.arcsin
          (k * acc.x / normOf ⟨k * acc.x, k * acc.y, k * acc.z⟩))) =
      -Real.arcsin (acc.y / normOf acc /
        Real.cos (Real.arcsin (acc.x / normOf acc)))
    rw [hx, hy]
  refine ⟨hp, hr, ?_⟩
  rw [update_norm_heading, update_norm_heading, hp, hr]

/-- Witness for C10 at `k = 2`, `acc = (0,0,1)`, `mag = (1,0,0)`. -/
theorem update_scale_invariant_witness :
    (0 : ℝ) < 2 ∧ normOf ⟨0, 0, 1⟩ ≠ 0 ∧
    ((Update ⟨⟨0,0,0⟩, ⟨0,0,0⟩, 0, 0, 0, 0, 0⟩ ⟨2 * 0, 2 * 0, 2 * 1⟩
        ⟨1,0,0⟩).pitch =
      (Update ⟨⟨0,0,0⟩, ⟨0,0,0⟩, 0, 0, 0, 0, 0⟩ ⟨0,0,1⟩ ⟨1,0,0⟩).pitch ∧
    (Update ⟨⟨0,0,0⟩, ⟨0,0,0⟩, 0, 0, 0, 0, 0⟩ ⟨2 * 0, 2 * 0, 2 * 1⟩
        ⟨1,0,0⟩).roll =
      (Update ⟨⟨0,0,0⟩, ⟨0,0,0⟩, 0, 0, 0, 0, 0⟩ ⟨0,0,1⟩ ⟨1,0,0⟩).roll ∧
    (Update ⟨⟨0,0,0⟩, ⟨0,0,0⟩, 0, 0, 0, 0, 0⟩ ⟨2 * 0, 2 * 0, 2 * 1⟩
        ⟨1,0,0⟩).norm_heading =
      (Update ⟨⟨0,0,0⟩, ⟨0,0,0⟩, 0, 0, 0, 0, 0⟩ ⟨0,0,1⟩
        ⟨1,0,0⟩).norm_heading) := by
  have hn : normOf ⟨0, 0, 1⟩ ≠ 0 := by
    unfold normOf
    norm_num [Real.sqrt_one]
  exact ⟨by norm_num, hn,
    update_scale_invariant _ ⟨0, 0, 1⟩ _ 2 (by norm_num) hn⟩

end LaserRangefinder
